import Mathlib

/-!
Verification of the incremental synchronization engine of the euclid-macro
data-collection pipeline, embedded shallowly from the Python sources:
`src/utils.py` (schema catalog, incremental filter, watermark query,
validator, staging/bronze writer), `src/core/base_fetcher.py` (retry and
backoff policy) and `src/fetchers/fetch_fred.py` (rate limiter, per-series
fetch loop).

Dates are embedded as natural numbers in an order-preserving encoding
(e.g. `2024-06-03 ↦ 20240603`); a pandas `date` object carries only its
ordering here.  A staged or fetched row is a `Record` holding its
identifier column (`symbol` or `series_id`, depending on the source), its
date, and one abstract payload field standing for the remaining columns.
-/

set_option autoImplicit false

namespace EuclidMacro

/-- One data row.  `symbol` is the identifier column of the source
(`symbol` or `series_id`), `date` the order-encoded date, `value` an
abstract stand-in for the remaining payload columns of the row. -/
structure Record where
  symbol : String
  date : Nat
  value : Int
deriving DecidableEq, Repr

/-- One entry of the `SOURCE_SCHEMAS` registry of `src/utils.py`. -/
structure SourceSchema where
  required_columns : List String
  descr : String
  date_column : String
  identifier_column : String
deriving DecidableEq, Repr

/-- Embeds Python's `str.lower()` for the ASCII source names the registry
holds (Lean's own `String.toLower` does not reduce in the kernel). -/
def pyToLower (s : String) : String :=
  ⟨s.data.map Char.toLower⟩

/-- The `SOURCE_SCHEMAS` dictionary of `src/utils.py` (lines 17-66):
`SOURCE_SCHEMAS.get(name)` for the eight registered sources. -/
def sourceSchemas (s : String) : Option SourceSchema :=
  if s = "yahoo" then
    some ⟨["date", "symbol", "open", "high", "low", "close", "volume"],
      "Yahoo Finance OHLCV data", "date", "symbol"⟩
  else if s = "fred" then
    some ⟨["date", "series_id", "value"], "FRED economic data", "date", "series_id"⟩
  else if s = "eia" then
    some ⟨["date", "series_id", "value"], "EIA energy data", "date", "series_id"⟩
  else if s = "baker" then
    some ⟨["date", "symbol", "metric", "value"], "Baker Hughes rig count data", "date", "symbol"⟩
  else if s = "finra" then
    some ⟨["date", "symbol", "metric", "value"], "FINRA margin statistics", "date", "symbol"⟩
  else if s = "sp500" then
    some ⟨["date", "symbol", "metric", "value"], "S&P 500 earnings data", "date", "symbol"⟩
  else if s = "usda" then
    some ⟨["date", "symbol", "metric", "value"], "USDA agricultural data", "date", "symbol"⟩
  else if s = "occ" then
    some ⟨["date", "symbol", "metric", "value"], "OCC options and futures volume data", "date", "symbol"⟩
  else none

/-- Association-list lookup used for the watermark mapping
`[identifier, latest_date]` (keys are unique: the mapping comes from a SQL
`GROUP BY`). -/
def lookupD (l : List (String × Nat)) (s : String) : Option Nat :=
  List.lookup s l

/-- `IncrementalDataManager.filter_incremental_data` (`src/utils.py`
lines 174-239): empty input returned as is; empty watermark mapping loads
everything; unknown source schema loads everything; otherwise a row is
kept iff its identifier has no watermark (left-merge `NaN`) or its date is
strictly greater than the identifier's watermark. -/
def filter_incremental_data (rows : List Record) (source_name : String)
    (latest_dates : List (String × Nat)) : List Record :=
  if rows.isEmpty then rows
  else if latest_dates.isEmpty then rows
  else
    match sourceSchemas (pyToLower source_name) with
    | none => rows
    | some _ =>
      rows.filter fun r =>
        match lookupD latest_dates r.symbol with
        | none => true
        | some w => decide (w < r.date)

/-- The dates of the rows of `st` whose identifier is `s` (the group of
`s` under the watermark query's `GROUP BY`). -/
def datesFor (st : List Record) (s : String) : List Nat :=
  (st.filter fun r => r.symbol == s).map (·.date)

/-- `MAX(date)` over the group of `s`; `0` when the group is empty (the
watermark query never emits a row for an absent group, see `latestOf`). -/
def maxDate (st : List Record) (s : String) : Nat :=
  (datesFor st s).foldl max 0

/-- The result set of the watermark SQL query of
`IncrementalDataManager.get_latest_dates_by_symbol` (`src/utils.py` lines
150-156): one `(identifier, MAX(date))` row per distinct identifier of the
staging rows `st`. -/
def latestOf (st : List Record) : List (String × Nat) :=
  ((st.map (·.symbol)).dedup).map fun s => (s, maxDate st s)

/-- The possible outcomes of the database interaction inside
`get_latest_dates_by_symbol`: the connection attempt fails, the staging
table does not exist, the query raises, or the query returns the committed
rows of the staging table. -/
inductive DbOutcome where
  | connectFail
  | noTable
  | queryError
  | ok (rows : List Record)
deriving DecidableEq, Repr

/-- `IncrementalDataManager.get_latest_dates_by_symbol` (`src/utils.py`
lines 113-172): an empty result on connection failure, on a missing
staging table, on an unknown source schema, and on any exception during
the query (the `except` clause returns `pd.DataFrame()`); otherwise the
grouped `MAX(date)` per identifier. -/
def get_latest_dates_by_symbol (db : DbOutcome) (source_name : String) :
    List (String × Nat) :=
  match db with
  | .connectFail => []
  | .noTable => []
  | .queryError => []
  | .ok rows =>
    match sourceSchemas (pyToLower source_name) with
    | none => []
    | some _ => latestOf rows

/-- One incremental run's effect on the staging table of one source: the
fetched batch is filtered against the watermarks read from the current
staging rows and the resulting delta batch is appended
(`DataPipelineManager.store_to_staging_table`, `src/utils.py` lines
394-409).  Modelled from the spec: the append itself,
`DuckDBManager.upload_data` of `duckdb_functions.py`, is not among the
sources; §4.4/§6 specify the commit as `append(source, rows)` onto the
staging table. -/
def commitIncremental (st batch : List Record) (src : String) : List Record :=
  st ++ filter_incremental_data batch src (get_latest_dates_by_symbol (.ok st) src)

/-!
Rate limiter (`FREDRateLimiter`, `src/fetchers/fetch_fred.py` lines
19-57).  Wall-clock instants and durations are embedded as rationals;
`time.sleep(wait + 0.1)` is modelled as advancing the clock by exactly
`wait + 1/10` (the idealized sleep; a longer actual sleep only moves
timestamps further out of the window).
-/

/-- Python's `min(...)` over a list of instants, defaulting to `0` on the
empty list (`min([])` raises in Python; the limiter only takes the minimum
of a list it has just found to be of length `>= max_requests >= 1`). -/
def qmin : List ℚ → ℚ
  | [] => 0
  | x :: xs => xs.foldl min x

/-- The pruning comprehension of `wait_if_needed`: keep request
timestamps strictly younger than `time_window` seconds. -/
def pruneWindow (T now : ℚ) (reqs : List ℚ) : List ℚ :=
  reqs.filter fun t => now - t < T

/-- `FREDRateLimiter.wait_if_needed` (`src/fetchers/fetch_fred.py` lines
30-57) with `max_requests = L` and `time_window = T`, acting on the
current clock and the recorded request timestamps; returns the clock when
the routine finishes and the new timestamp list (the pruned list, plus
this request recorded at the finishing instant). -/
def wait_if_needed (L : Nat) (T : ℚ) (now : ℚ) (reqs : List ℚ) : ℚ × List ℚ :=
  let r1 := pruneWindow T now reqs
  if L ≤ r1.length then
    let oldest := qmin r1
    let wait := T - (now - oldest)
    if 0 < wait then
      let now2 := now + wait + 1 / 10
      (now2, pruneWindow T now2 r1 ++ [now2])
    else
      (now, r1 ++ [now])
  else
    (now, r1 ++ [now])

/-- A whole sequence of calls to the limiter, one per request the fetcher
issues: each call happens at the later of its scheduled instant and the
clock left by the previous call (wall time never runs backwards). -/
def runLimiter (L : Nat) (T : ℚ) : List ℚ → ℚ × List ℚ → ℚ × List ℚ
  | [], st => st
  | n :: ns, (now, reqs) => runLimiter L T ns (wait_if_needed L T (max n now) reqs)

/-!
Retry and backoff (`BaseDataFetcher.handle_api_error`,
`src/core/base_fetcher.py` lines 115-163, and the per-series fetch loop
`FREDFetcher.get_single_series`, `src/fetchers/fetch_fred.py` lines
77-124).
-/

/-- The three classification branches of `handle_api_error`, which the
code derives by substring-matching the error message: rate-limited
("too many requests", "429", "rate limit"), client error ("bad request",
"400", "not found", "404", "unauthorized", "401"), and every other error
(the transient-server branch). -/
inductive ErrorClass where
  | rateLimited
  | clientError
  | serverOther
deriving DecidableEq, Repr

/-- `BaseDataFetcher.handle_api_error` with `base_wait_time = base_wait`:
`some w` means the routine sleeps `w` seconds and tells the caller to
retry; `none` means it tells the caller to stop.  Rate-limited and
transient-server errors at attempt `n` (0-indexed, `n < max_retries - 1`)
sleep `base_wait * 2 ^ n`; client errors never retry. -/
def handle_api_error (base_wait attempt max_retries : Nat) (ec : ErrorClass) :
    Option Nat :=
  match ec with
  | .rateLimited =>
    if attempt < max_retries - 1 then some (base_wait * 2 ^ attempt) else none
  | .clientError => none
  | .serverOther =>
    if attempt < max_retries - 1 then some (base_wait * 2 ^ attempt) else none

/-- What one API call inside the fetch loop does at a given attempt. -/
inductive FetchOutcome where
  | success
  | fail (ec : ErrorClass)

/-- How `get_single_series` ends, together with the total backoff wait it
accumulated: `ok` — data returned; `emptyResult` — `handle_api_error`
said stop and the function returned `pd.DataFrame()` (lines 119-121);
`raisedExhausted` — the `raise` after the loop (line 124). -/
inductive FetchResult where
  | ok (totalWait : Nat)
  | emptyResult (totalWait : Nat)
  | raisedExhausted (totalWait : Nat)
deriving DecidableEq, Repr

/-- The `for attempt in range(max_retries)` loop of
`FREDFetcher.get_single_series`, by remaining iterations (`fuel`),
current 0-indexed `attempt`, and accumulated backoff wait `acc`. -/
def fetchLoop (B maxR : Nat) (outcome : Nat → FetchOutcome) :
    Nat → Nat → Nat → FetchResult
  | 0, _, acc => .raisedExhausted acc
  | fuel + 1, attempt, acc =>
    match outcome attempt with
    | .success => .ok acc
    | .fail ec =>
      match handle_api_error B attempt maxR ec with
      | some w => fetchLoop B maxR outcome fuel (attempt + 1) (acc + w)
      | none => .emptyResult acc

/-- `FREDFetcher.get_single_series` (`src/fetchers/fetch_fred.py` lines
77-124) for a series whose API call at attempt `a` does `outcome a`. -/
def get_single_series (B maxR : Nat) (outcome : Nat → FetchOutcome) :
    FetchResult :=
  fetchLoop B maxR outcome maxR 0 0

/-- The per-series loop of `FREDFetcher.fetch_batch`
(`src/fetchers/fetch_fred.py` lines 160-191): counts
`(successful_fetches, failed_fetches)`; a series whose fetch returns no
rows is counted failed, and a raised exception is caught (lines 188-191)
— the loop continues with the remaining series either way.  `.ok` stands
for a fetch that returned rows. -/
def fetch_batch_counts (B maxR : Nat) (seriesRuns : List (Nat → FetchOutcome)) :
    Nat × Nat :=
  seriesRuns.foldl
    (fun (c : Nat × Nat) outcome =>
      match get_single_series B maxR outcome with
      | .ok _ => (c.1 + 1, c.2)
      | .emptyResult _ => (c.1, c.2 + 1)
      | .raisedExhausted _ => (c.1, c.2 + 1))
    (0, 0)

/-!
Validator (`DataValidator.validate_dataframe`, `src/utils.py` lines
244-312) and store step (`DataPipelineManager.store_to_staging_table`,
lines 374-425).  A pandas DataFrame is embedded as its column metadata —
what the validator inspects — together with its row content, which the
incremental filter and the writers consume.
-/

/-- Metadata of one pandas column: its name, whether
`pd.api.types.is_numeric_dtype` holds, whether the column contains null
values, and whether `pd.to_datetime` over it succeeds. -/
structure ColumnMeta where
  name : String
  isNumeric : Bool
  hasNulls : Bool
  datesParseable : Bool
deriving DecidableEq, Repr

/-- A fetched batch as the validator and the store step see it. -/
structure DataFrame where
  cols : List ColumnMeta
  rows : List Record
deriving DecidableEq, Repr

/-- `col in df.columns`. -/
def hasCol (df : DataFrame) (c : String) : Bool :=
  df.cols.any fun m => m.name == c

/-- `pd.api.types.is_numeric_dtype(df[c])` (`false` if the column is
absent; the validator only reaches this check for present columns). -/
def colIsNumeric (df : DataFrame) (c : String) : Bool :=
  match df.cols.find? (fun m => m.name == c) with
  | some m => m.isNumeric
  | none => false

/-- `df[c].isnull().any()`. -/
def colHasNulls (df : DataFrame) (c : String) : Bool :=
  match df.cols.find? (fun m => m.name == c) with
  | some m => m.hasNulls
  | none => false

/-- Whether `pd.to_datetime(df[c])` succeeds (`true` when the column is
absent: validation only reaches the date check when the required `date`
column is present). -/
def colDatesParseable (df : DataFrame) (c : String) : Bool :=
  match df.cols.find? (fun m => m.name == c) with
  | some m => m.datesParseable
  | none => true

/-- `DataValidator.validate_dataframe` (`src/utils.py` lines 244-312):
empty DataFrame → `False`; unknown source → `False`; any required column
missing → `False`; null values in required columns are only logged as a
warning; the source-specific numeric-dtype checks and the
date-parseability check are hard failures; otherwise `True`.  (`occ` is
registered in the schema catalog but appears in none of the numeric-check
branches, exactly as in the source.) -/
def validate_dataframe (df : DataFrame) (source_name : String) : Bool :=
  let s := pyToLower source_name
  if df.rows.isEmpty then false
  else
    match sourceSchemas s with
    | none => false
    | some sch =>
      if !(sch.required_columns.all fun c => hasCol df c) then false
      else
        let _nullWarning := sch.required_columns.any fun c => colHasNulls df c
        if s == "yahoo" &&
            !(["open", "high", "low", "close", "volume"].all fun c =>
              colIsNumeric df c) then false
        else if (s == "fred" || s == "eia") && !(colIsNumeric df "value") then false
        else if (s == "baker" || s == "finra" || s == "sp500" || s == "usda") &&
            !(colIsNumeric df "value") then false
        else if !(colDatesParseable df "date") then false
        else true

/-- Outcomes of the store step's collaborators: the database connection,
the staging append (`DuckDBManager.upload_data`; its body is in
`duckdb_functions.py`, not among the sources — only its success flag is
consumed here), and the bronze parquet write. -/
structure StoreEnv where
  connectOk : Bool
  uploadOk : Bool
  bronzeWriteOk : Bool
deriving DecidableEq, Repr

/-- `BronzeLayerManager.export_to_bronze` (`src/utils.py` lines 320-362):
empty data → warning and `False`; otherwise succeeds iff writing the
parquet snapshot does (any exception → `False`). -/
def export_to_bronze (env : StoreEnv) (rows : List Record) : Bool :=
  if rows.isEmpty then false else env.bronzeWriteOk

/-- The delta the store step will append: the incremental filter result
when `incremental`, the batch itself otherwise
(`store_to_staging_table` lines 394-397). -/
def deltaRows (db : DbOutcome) (df : DataFrame) (src : String)
    (incremental : Bool) : List Record :=
  if incremental then
    filter_incremental_data df.rows src (get_latest_dates_by_symbol db src)
  else df.rows

/-- `DataPipelineManager.store_to_staging_table` (`src/utils.py` lines
374-425): validation failure → `False`; a batch left empty by the
incremental filter → `True` ("already up to date"); connection or staging
append failure → `False`; a failed bronze export is logged as a warning
only, the step still returns `True`. -/
def store_to_staging_table (env : StoreEnv) (db : DbOutcome) (df : DataFrame)
    (src : String) (incremental : Bool) : Bool :=
  if !(validate_dataframe df src) then false
  else
    let rows := deltaRows db df src incremental
    if incremental && rows.isEmpty then true
    else if !env.connectOk then false
    else if !env.uploadOk then false
    else
      let _bronze := export_to_bronze env rows
      true

/-- A well-formed one-row FRED batch used as concrete input. -/
def fredDf : DataFrame :=
  ⟨[⟨"date", false, false, true⟩, ⟨"series_id", false, false, true⟩,
    ⟨"value", true, false, true⟩], [⟨"GDP", 20240101, 5⟩]⟩

/-- The same FRED batch with null values present in its `value` column. -/
def fredDfNulls : DataFrame :=
  ⟨[⟨"date", false, false, true⟩, ⟨"series_id", false, false, true⟩,
    ⟨"value", true, true, true⟩], [⟨"GDP", 20240101, 5⟩, ⟨"GDP", 20240102, 0⟩]⟩

theorem lookup_map_keys (f : String → Nat) (keys : List String) (s : String) :
    List.lookup s (keys.map fun k => (k, f k)) =
      if s ∈ keys then some (f s) else none := by
  induction keys with
  | nil => simp
  | cons k ks ih =>
    simp only [List.map_cons, List.lookup_cons]
    by_cases h : s = k
    · subst h
      simp
    · have hbeq : (s == k) = false := by
        simp [h]
      simp [hbeq, ih, h]

theorem le_foldl_max (b : Nat) (l : List Nat) : b ≤ l.foldl max b := by
  induction l generalizing b with
  | nil => exact Nat.le_refl b
  | cons c l ih =>
    exact Nat.le_trans (Nat.le_max_left b c) (ih (max b c))

theorem mem_le_foldl_max {a : Nat} {l : List Nat} (h : a ∈ l) (b : Nat) :
    a ≤ l.foldl max b := by
  induction l generalizing b with
  | nil => cases h
  | cons c l ih =>
    rcases List.mem_cons.mp h with rfl | h'
    · exact Nat.le_trans (Nat.le_max_right b a) (le_foldl_max _ l)
    · exact ih h' (max b c)

theorem date_le_maxDate {st : List Record} {r : Record} (h : r ∈ st) :
    r.date ≤ maxDate st r.symbol := by
  apply mem_le_foldl_max
  simp only [datesFor, List.mem_map, List.mem_filter]
  exact ⟨r, ⟨h, by simp⟩, rfl⟩

theorem maxDate_le_append (st d : List Record) (s : String) :
    maxDate st s ≤ maxDate (st ++ d) s := by
  unfold maxDate datesFor
  rw [List.filter_append, List.map_append, List.foldl_append]
  exact le_foldl_max _ _

theorem lookup_latestOf (st : List Record) (s : String) :
    lookupD (latestOf st) s =
      if s ∈ st.map (·.symbol) then some (maxDate st s) else none := by
  unfold lookupD latestOf
  rw [lookup_map_keys]
  by_cases h : s ∈ st.map (·.symbol)
  · rw [if_pos (List.mem_dedup.mpr h), if_pos h]
  · rw [if_neg (fun hc => h (List.mem_dedup.mp hc)), if_neg h]

theorem mem_filter_incremental {rows : List Record} {src : String}
    {latest : List (String × Nat)} {sch : SourceSchema}
    (hs : sourceSchemas (pyToLower src) = some sch) (r : Record) :
    r ∈ filter_incremental_data rows src latest ↔
      r ∈ rows ∧ (lookupD latest r.symbol = none ∨
        ∃ w, lookupD latest r.symbol = some w ∧ w < r.date) := by
  match rows with
  | [] => simp [filter_incremental_data]
  | r0 :: rest =>
    match latest with
    | [] => simp [filter_incremental_data, lookupD]
    | p :: ps =>
      simp only [filter_incremental_data, List.isEmpty_cons, Bool.false_eq_true,
        if_false, hs]
      rw [List.mem_filter]
      cases hw : lookupD (p :: ps) r.symbol with
      | none => simp [hw]
      | some w => simp [hw]

/-- C1: `filter_incremental_data` retains a record iff its identifier has
no entry in the watermark mapping or its date is strictly greater than
that identifier's watermark (so no record with `date <= w` ever survives);
and on the concrete Scenario A batch (`AAPL` rows dated `2024-05-30`,
`2024-06-01`, `2024-06-03` against watermark `AAPL ↦ 2024-06-01`) exactly
the `2024-06-03` row is returned. -/
theorem filter_incremental_data_keeps_iff :
    (∀ (rows : List Record) (src : String) (latest : List (String × Nat))
        (sch : SourceSchema), sourceSchemas (pyToLower src) = some sch →
      ∀ r : Record, (r ∈ filter_incremental_data rows src latest ↔
        r ∈ rows ∧ (lookupD latest r.symbol = none ∨
          ∃ w, lookupD latest r.symbol = some w ∧ w < r.date))) ∧
    filter_incremental_data
      [⟨"AAPL", 20240530, 1⟩, ⟨"AAPL", 20240601, 2⟩, ⟨"AAPL", 20240603, 3⟩]
      "yahoo" [("AAPL", 20240601)] = [⟨"AAPL", 20240603, 3⟩] :=
  ⟨fun _ _ _ _ hs r => mem_filter_incremental hs r, by decide⟩

/-- Witness for the universally quantified half of
`filter_incremental_data_keeps_iff`, at the Scenario A input. -/
theorem filter_incremental_data_keeps_iff_witness :
    (⟨"AAPL", 20240601, 2⟩ : Record) ∈
        filter_incremental_data
          [⟨"AAPL", 20240530, 1⟩, ⟨"AAPL", 20240601, 2⟩, ⟨"AAPL", 20240603, 3⟩]
          "yahoo" [("AAPL", 20240601)] ↔
      (⟨"AAPL", 20240601, 2⟩ : Record) ∈
          [(⟨"AAPL", 20240530, 1⟩ : Record), ⟨"AAPL", 20240601, 2⟩, ⟨"AAPL", 20240603, 3⟩] ∧
        (lookupD [("AAPL", 20240601)] "AAPL" = none ∨
          ∃ w, lookupD [("AAPL", 20240601)] "AAPL" = some w ∧ w < 20240601) :=
  filter_incremental_data_keeps_iff.1
    [⟨"AAPL", 20240530, 1⟩, ⟨"AAPL", 20240601, 2⟩, ⟨"AAPL", 20240603, 3⟩]
    "yahoo" [("AAPL", 20240601)]
    ⟨["date", "symbol", "open", "high", "low", "close", "volume"],
      "Yahoo Finance OHLCV data", "date", "symbol"⟩ (by decide)
    ⟨"AAPL", 20240601, 2⟩

theorem get_latest_ok (st : List Record) {src : String} {sch : SourceSchema}
    (hs : sourceSchemas (pyToLower src) = some sch) :
    get_latest_dates_by_symbol (.ok st) src = latestOf st := by
  simp [get_latest_dates_by_symbol, hs]

/-- C2: idempotence — filtering a batch against the watermarks derived
from the staging table immediately after that same batch was committed
yields an empty delta batch. -/
theorem second_run_is_empty (st batch : List Record) (src : String)
    (sch : SourceSchema) (hs : sourceSchemas (pyToLower src) = some sch) :
    filter_incremental_data batch src
      (get_latest_dates_by_symbol (.ok (commitIncremental st batch src)) src) = [] := by
  rw [get_latest_ok _ hs, List.eq_nil_iff_forall_not_mem]
  intro r hr
  rw [mem_filter_incremental hs] at hr
  obtain ⟨hrb, hkeep⟩ := hr
  set st' := commitIncremental st batch src with hst'
  have hmem : r.symbol ∈ st'.map (·.symbol) ∧ r.date ≤ maxDate st' r.symbol := by
    by_cases hdelta :
        r ∈ filter_incremental_data batch src (get_latest_dates_by_symbol (.ok st) src)
    · have hr' : r ∈ st' := by
        rw [hst', commitIncremental]
        exact List.mem_append_right st hdelta
      exact ⟨List.mem_map.mpr ⟨r, hr', rfl⟩, date_le_maxDate hr'⟩
    · rw [mem_filter_incremental hs, get_latest_ok _ hs] at hdelta
      push_neg at hdelta
      obtain ⟨hne, hge⟩ := hdelta hrb
      rw [lookup_latestOf] at hne hge
      by_cases hin : r.symbol ∈ st.map (·.symbol)
      · rw [if_pos hin] at hge
        have hle : r.date ≤ maxDate st r.symbol := by
          have := hge (maxDate st r.symbol) rfl
          omega
        have hin' : r.symbol ∈ st'.map (·.symbol) := by
          rw [hst', commitIncremental, List.map_append]
          exact List.mem_append_left _ hin
        exact ⟨hin', Nat.le_trans hle (maxDate_le_append st _ r.symbol)⟩
      · rw [if_neg hin] at hne
        exact absurd rfl hne
  rw [lookup_latestOf, if_pos hmem.1] at hkeep
  rcases hkeep with h | ⟨w, hw, hlt⟩
  · exact Option.noConfusion h
  · have : w = maxDate st' r.symbol := Option.some.injEq _ _ ▸ hw.symm ▸ rfl
    omega

/-- Witness for `second_run_is_empty` at a concrete staging table, batch
and source. -/
theorem second_run_is_empty_witness :
    filter_incremental_data [⟨"AAPL", 20240603, 3⟩] "yahoo"
      (get_latest_dates_by_symbol
        (.ok (commitIncremental [⟨"AAPL", 20240601, 2⟩] [⟨"AAPL", 20240603, 3⟩] "yahoo"))
        "yahoo") = [] :=
  second_run_is_empty [⟨"AAPL", 20240601, 2⟩] [⟨"AAPL", 20240603, 3⟩] "yahoo"
    ⟨["date", "symbol", "open", "high", "low", "close", "volume"],
      "Yahoo Finance OHLCV data", "date", "symbol"⟩ (by decide)

/-- C3: per-identifier monotonicity — committing a run's delta batch never
decreases an identifier's watermark and never deletes a watermark entry:
any identifier with watermark `w` before the commit has a watermark
`w' ≥ w` after it. -/
theorem watermark_monotone (st batch : List Record) (src : String)
    (sch : SourceSchema) (hs : sourceSchemas (pyToLower src) = some sch)
    (s : String) (w : Nat)
    (h : lookupD (get_latest_dates_by_symbol (.ok st) src) s = some w) :
    ∃ w', lookupD
        (get_latest_dates_by_symbol (.ok (commitIncremental st batch src)) src) s =
          some w' ∧ w ≤ w' := by
  rw [get_latest_ok _ hs, lookup_latestOf] at h
  rw [get_latest_ok _ hs]
  by_cases hin : s ∈ st.map (·.symbol)
  · rw [if_pos hin] at h
    have hw : w = maxDate st s := by
      exact (Option.some.injEq _ _ ▸ h).symm
    have hin' : s ∈ (commitIncremental st batch src).map (·.symbol) := by
      rw [commitIncremental, List.map_append]
      exact List.mem_append_left _ hin
    refine ⟨maxDate (commitIncremental st batch src) s, ?_, ?_⟩
    · rw [lookup_latestOf, if_pos hin']
    · rw [hw, commitIncremental]
      exact maxDate_le_append st _ s
  · rw [if_neg hin] at h
    exact Option.noConfusion h

/-- Witness for `watermark_monotone` at a concrete staging table and
batch. -/
theorem watermark_monotone_witness :
    ∃ w', lookupD
        (get_latest_dates_by_symbol
          (.ok (commitIncremental [⟨"AAPL", 20240601, 2⟩] [⟨"AAPL", 20240603, 3⟩] "yahoo"))
          "yahoo") "AAPL" = some w' ∧ 20240601 ≤ w' :=
  watermark_monotone [⟨"AAPL", 20240601, 2⟩] [⟨"AAPL", 20240603, 3⟩] "yahoo"
    ⟨["date", "symbol", "open", "high", "low", "close", "volume"],
      "Yahoo Finance OHLCV data", "date", "symbol"⟩ (by decide)
    "AAPL" 20240601 (by decide)

/-- C6: on a first run — the staging table absent, or present with zero
committed rows — the watermark query returns an empty mapping, and the
delta batch is the full raw fetched batch, unfiltered. -/
theorem first_run_loads_everything :
    (∀ src : String, get_latest_dates_by_symbol .noTable src = [] ∧
      get_latest_dates_by_symbol (.ok []) src = []) ∧
    (∀ (rows : List Record) (src : String),
      filter_incremental_data rows src (get_latest_dates_by_symbol .noTable src) = rows ∧
      filter_incremental_data rows src (get_latest_dates_by_symbol (.ok []) src) = rows) := by
  have hok : ∀ src : String, get_latest_dates_by_symbol (.ok []) src = [] := by
    intro src
    cases hs : sourceSchemas (pyToLower src) <;>
      simp [get_latest_dates_by_symbol, hs, latestOf]
  refine ⟨fun src => ⟨rfl, hok src⟩, fun rows src => ⟨?_, ?_⟩⟩
  · cases rows <;> simp [filter_incremental_data, get_latest_dates_by_symbol]
  · rw [hok src]
    cases rows <;> simp [filter_incremental_data]

/-- C10: a watermark read that fails for any reason other than the table
being absent — connection failure, unknown source schema, or an exception
during the query — is swallowed into an empty mapping, indistinguishable
from a first run, so the incremental filter then treats the entire fetched
batch as new. -/
theorem watermark_read_failures_swallowed :
    (∀ src : String, get_latest_dates_by_symbol .connectFail src = [] ∧
      get_latest_dates_by_symbol .queryError src = []) ∧
    (∀ (rows : List Record) (src : String), sourceSchemas (pyToLower src) = none →
      get_latest_dates_by_symbol (.ok rows) src = []) ∧
    (∀ (rows : List Record) (src : String) (db : DbOutcome),
      get_latest_dates_by_symbol db src = [] →
      filter_incremental_data rows src (get_latest_dates_by_symbol db src) = rows) := by
  refine ⟨fun src => ⟨rfl, rfl⟩, ?_, ?_⟩
  · intro rows src hs
    simp [get_latest_dates_by_symbol, hs]
  · intro rows src db h
    rw [h]
    cases rows <;> simp [filter_incremental_data]

/-- Witness for `watermark_read_failures_swallowed`: an unregistered
source schema yields an empty mapping, and a failed connection makes the
filter pass the whole batch through. -/
theorem watermark_read_failures_swallowed_witness :
    get_latest_dates_by_symbol (.ok [⟨"X", 1, 0⟩]) "nosuch" = [] ∧
    filter_incremental_data [⟨"AAPL", 20240530, 1⟩] "fred"
      (get_latest_dates_by_symbol .connectFail "fred") = [⟨"AAPL", 20240530, 1⟩] :=
  ⟨watermark_read_failures_swallowed.2.1 [⟨"X", 1, 0⟩] "nosuch" (by decide),
    watermark_read_failures_swallowed.2.2 [⟨"AAPL", 20240530, 1⟩] "fred" .connectFail rfl⟩

theorem foldl_min_mem (x : ℚ) (xs : List ℚ) : xs.foldl min x ∈ x :: xs := by
  induction xs generalizing x with
  | nil => exact List.mem_singleton.mpr rfl
  | cons y ys ih =>
    have h := ih (min x y)
    rcases List.mem_cons.mp h with h' | h'
    · rw [List.foldl_cons, h']
      rcases min_choice x y with h'' | h'' <;> rw [h'']
      · exact List.mem_cons_self _ _
      · exact List.mem_cons_of_mem _ (List.mem_cons_self _ _)
    · exact List.mem_cons_of_mem _ (List.mem_cons_of_mem _ h')

theorem qmin_mem {l : List ℚ} (h : l ≠ []) : qmin l ∈ l := by
  match l with
  | x :: xs => exact foldl_min_mem x xs

theorem length_filter_lt_of_mem_not {α : Type} {p : α → Bool} {l : List α}
    {a : α} (ha : a ∈ l) (hp : p a = false) :
    (l.filter p).length < l.length := by
  induction l with
  | nil => cases ha
  | cons c l ih =>
    rcases List.mem_cons.mp ha with rfl | ha'
    · rw [List.filter_cons, hp]
      simp only [List.length_cons]
      exact Nat.lt_succ_of_le (List.length_filter_le p l)
    · rw [List.filter_cons]
      cases hc : p c
      · simp only [List.length_cons]
        exact Nat.lt_succ_of_lt (ih ha')
      · simp only [List.length_cons]
        exact Nat.succ_lt_succ (ih ha')

theorem wait_if_needed_length {L : Nat} {T : ℚ} (hL : 1 ≤ L)
    (now : ℚ) {reqs : List ℚ} (h : reqs.length ≤ L) :
    (wait_if_needed L T now reqs).2.length ≤ L := by
  unfold wait_if_needed
  set r1 := pruneWindow T now reqs with hr1
  have hlen1 : r1.length ≤ L :=
    Nat.le_trans (List.length_filter_le _ reqs) h
  by_cases hfull : L ≤ r1.length
  · have hne : r1 ≠ [] := by
      intro hnil
      rw [hnil] at hfull
      simp at hfull
      omega
    have hold : qmin r1 ∈ r1 := qmin_mem hne
    have holdT : now - qmin r1 < T := by
      have := List.mem_filter.mp (hr1 ▸ hold)
      exact of_decide_eq_true this.2
    have hwait : 0 < T - (now - qmin r1) := by linarith
    simp only [hfull, if_true, hwait, if_true]
    have hdrop : (pruneWindow T (now + (T - (now - qmin r1)) + 1 / 10) r1).length <
        r1.length := by
      apply length_filter_lt_of_mem_not hold
      rw [decide_eq_false_iff_not]
      push_neg
      linarith
    rw [List.length_append, List.length_singleton]
    omega
  · simp only [hfull, if_false]
    rw [List.length_append, List.length_singleton]
    omega

theorem runLimiter_length {L : Nat} {T : ℚ} (hL : 1 ≤ L) (ns : List ℚ)
    (now : ℚ) {reqs : List ℚ} (h : reqs.length ≤ L) :
    (runLimiter L T ns (now, reqs)).2.length ≤ L := by
  induction ns generalizing now reqs with
  | nil => exact h
  | cons n ns ih =>
    rw [runLimiter]
    have hstep := @wait_if_needed_length L T hL (max n now) reqs h
    have hres := ih (wait_if_needed L T (max n now) reqs).1 hstep
    simpa using hres

/-- C4: the rate-limit contract — for limiter parameters `(L, T)` with
`L ≥ 1`, after any sequence of calls to `wait_if_needed` (starting from no
recorded requests), the count of recorded request timestamps within the
trailing `T`-second window never exceeds `L`, however many identifiers are
processed. -/
theorem rate_limiter_window_bound (L : Nat) (T : ℚ) (hL : 1 ≤ L)
    (ns : List ℚ) (start : ℚ) :
    (pruneWindow T (runLimiter L T ns (start, [])).1
      (runLimiter L T ns (start, [])).2).length ≤ L := by
  have h := @runLimiter_length L T hL ns start [] (by simp)
  exact Nat.le_trans (List.length_filter_le _ _) h

/-- Witness for `rate_limiter_window_bound`: three back-to-back calls with
limit `1` per `60` seconds. -/
theorem rate_limiter_window_bound_witness :
    (pruneWindow 60 (runLimiter 1 60 [0, 0, 0] (0, [])).1
      (runLimiter 1 60 [0, 0, 0] (0, [])).2).length ≤ 1 :=
  rate_limiter_window_bound 1 60 (by decide) [0, 0, 0] 0

/-- C5: backoff policy — a retryable failure at 0-indexed attempt `n` with
`n < max_retries - 1` sleeps exactly `base_wait * 2 ^ n` before the next
attempt; hence the wait before 1-indexed retry `n` is at least
`base_wait * 2 ^ (n - 1)`; and Scenario C (two rate-limit failures then
success, `max_retries = 3`) accumulates a total wait of exactly
`B * 1 + B * 2`. -/
theorem backoff_exponential :
    (∀ (B n maxR : Nat) (ec : ErrorClass), ec ≠ .clientError → n < maxR - 1 →
      handle_api_error B n maxR ec = some (B * 2 ^ n)) ∧
    (∀ (B n maxR : Nat) (ec : ErrorClass), ec ≠ .clientError → 1 ≤ n →
      n ≤ maxR - 1 →
      ∃ w, handle_api_error B (n - 1) maxR ec = some w ∧ B * 2 ^ (n - 1) ≤ w) ∧
    (∀ B : Nat, get_single_series B 3
      (fun a => if a < 2 then .fail .rateLimited else .success) =
        .ok (B * 1 + B * 2)) := by
  have h1 : ∀ (B n maxR : Nat) (ec : ErrorClass), ec ≠ .clientError →
      n < maxR - 1 → handle_api_error B n maxR ec = some (B * 2 ^ n) := by
    intro B n maxR ec hec hn
    cases ec with
    | rateLimited => simp [handle_api_error, hn]
    | clientError => exact absurd rfl hec
    | serverOther => simp [handle_api_error, hn]
  refine ⟨h1, ?_, ?_⟩
  · intro B n maxR ec hec h1n hn
    exact ⟨B * 2 ^ (n - 1), h1 B (n - 1) maxR ec hec (by omega), Nat.le_refl _⟩
  · intro B
    show fetchLoop B 3 _ 3 0 0 = _
    norm_num [fetchLoop, handle_api_error]

/-- Witness for `backoff_exponential` at the default parameters
(`base_wait_time = 30`, `max_retries = 3`). -/
theorem backoff_exponential_witness :
    handle_api_error 30 0 3 .rateLimited = some (30 * 2 ^ 0) ∧
    (∃ w, handle_api_error 30 1 3 .serverOther = some w ∧ 30 * 2 ^ 1 ≤ w) :=
  ⟨backoff_exponential.1 30 0 3 .rateLimited (by decide) (by decide),
    backoff_exponential.2.1 30 2 3 .serverOther (by decide) (by decide) (by decide)⟩

/-- C7 counterexample: with the default `base_wait = 30`,
`max_retries = 3`, a client error makes `get_single_series` return an
empty DataFrame at once (no retry, no raise), and rate-limit failures on
all three attempts likewise end in an empty DataFrame after `30 + 60`
seconds of backoff — not in the run-aborting raise the claim requires
(`raisedExhausted` is never produced). -/
theorem fetch_failure_not_escalated :
    get_single_series 30 3 (fun _ => .fail .clientError) = .emptyResult 0 ∧
    get_single_series 30 3 (fun _ => .fail .rateLimited) = .emptyResult 90 := by
  constructor <;> rfl

theorem handle_api_error_some_lt {B attempt maxR w : Nat} {ec : ErrorClass}
    (hh : handle_api_error B attempt maxR ec = some w) :
    attempt < maxR - 1 := by
  cases ec with
  | rateLimited =>
    by_cases h : attempt < maxR - 1
    · exact h
    · simp [handle_api_error, h] at hh
  | clientError => simp [handle_api_error] at hh
  | serverOther =>
    by_cases h : attempt < maxR - 1
    · exact h
    · simp [handle_api_error, h] at hh

theorem fetchLoop_no_raise {B maxR : Nat} {outcome : Nat → FetchOutcome}
    {w : Nat} :
    ∀ fuel attempt acc : Nat, 1 ≤ fuel → maxR ≤ attempt + fuel →
      fetchLoop B maxR outcome fuel attempt acc ≠ .raisedExhausted w := by
  intro fuel
  induction fuel with
  | zero => omega
  | succ f ih =>
    intro attempt acc _ hle
    rw [fetchLoop]
    cases houtc : outcome attempt with
    | success => simp [houtc]
    | fail ec =>
      simp only [houtc]
      cases hh : handle_api_error B attempt maxR ec with
      | none => simp [hh]
      | some wt =>
        simp only [hh]
        have hlt := handle_api_error_some_lt hh
        exact ih (attempt + 1) (acc + wt) (by omega) (by omega)

/-- C7 amended: client errors are never retried, but a client error makes
`get_single_series` return an empty result immediately (logged and
swallowed, not escalated); retryable errors are retried with backoff and,
once retries are exhausted, likewise end in an empty result — the
post-loop raise is unreachable whenever `max_retries ≥ 1` — and the batch
loop counts such series as failed and continues with the rest. -/
theorem fetch_failures_swallowed :
    (∀ B a m : Nat, handle_api_error B a m .clientError = none) ∧
    (∀ (B maxR : Nat) (outcome : Nat → FetchOutcome), 1 ≤ maxR →
      outcome 0 = .fail .clientError →
      get_single_series B maxR outcome = .emptyResult 0) ∧
    (∀ (B maxR : Nat) (outcome : Nat → FetchOutcome) (w : Nat), 1 ≤ maxR →
      get_single_series B maxR outcome ≠ .raisedExhausted w) ∧
    fetch_batch_counts 30 3 [fun _ => .fail .clientError, fun _ => .success] =
      (1, 1) := by
  refine ⟨fun B a m => rfl, ?_, ?_, rfl⟩
  · intro B maxR outcome hmax h0
    match maxR, hmax with
    | m + 1, _ =>
      show fetchLoop B (m + 1) outcome (m + 1) 0 0 = _
      rw [fetchLoop, h0]
      rfl
  · intro B maxR outcome w hmax
    exact fetchLoop_no_raise maxR 0 0 hmax (by omega)

/-- Witness for `fetch_failures_swallowed` at concrete retry budgets. -/
theorem fetch_failures_swallowed_witness :
    get_single_series 7 5 (fun _ => .fail .clientError) = .emptyResult 0 ∧
    get_single_series 30 3 (fun _ => .fail .serverOther) ≠ .raisedExhausted 90 :=
  ⟨fetch_failures_swallowed.2.1 7 5 (fun _ => .fail .clientError) (by decide) rfl,
    fetch_failures_swallowed.2.2.1 30 3 (fun _ => .fail .serverOther) 90 (by decide)⟩

/-- C8: for a non-empty delta batch, a staging append failure makes the
store step report failure, while the step reports success whenever the
append succeeded — regardless of whether the bronze snapshot write
succeeded or failed. -/
theorem staging_fatal_bronze_warned (db : DbOutcome) (df : DataFrame)
    (src : String) (bronzeOk incr : Bool)
    (hv : validate_dataframe df src = true)
    (hne : (deltaRows db df src incr).isEmpty = false) :
    store_to_staging_table ⟨true, false, bronzeOk⟩ db df src incr = false ∧
    store_to_staging_table ⟨true, true, bronzeOk⟩ db df src incr = true := by
  constructor <;> simp [store_to_staging_table, hv, hne]

/-- Witness for `staging_fatal_bronze_warned` on a concrete FRED batch,
with the bronze write failing. -/
theorem staging_fatal_bronze_warned_witness :
    store_to_staging_table ⟨true, false, false⟩ .noTable fredDf "fred" true = false ∧
    store_to_staging_table ⟨true, true, false⟩ .noTable fredDf "fred" true = true :=
  staging_fatal_bronze_warned .noTable fredDf "fred" false true (by decide) (by decide)

/-- C9 counterexample: the claim says an empty batch validates as a no-op
success and the store step reports no error for it; in the code an empty
FRED batch fails validation (`validate_dataframe` returns `False` at line
258-260) and the store step returns failure even with every collaborator
succeeding. -/
theorem empty_batch_fails_validation :
    validate_dataframe ⟨fredDf.cols, []⟩ "fred" = false ∧
    store_to_staging_table ⟨true, true, true⟩ .noTable ⟨fredDf.cols, []⟩
      "fred" true = false := by
  constructor <;> rfl

/-- C9 amended: an empty input batch fails validation and makes the store
step report failure; only a batch that becomes empty after incremental
filtering is treated as a no-op success; a missing required column fails
validation; null values in present, well-typed columns are only warned
about and pass. -/
theorem validation_empty_null_policy :
    (∀ (df : DataFrame) (src : String), df.rows.isEmpty = true →
      validate_dataframe df src = false) ∧
    (∀ (env : StoreEnv) (db : DbOutcome) (df : DataFrame) (src : String)
        (incr : Bool), df.rows.isEmpty = true →
      store_to_staging_table env db df src incr = false) ∧
    (∀ (env : StoreEnv) (db : DbOutcome) (df : DataFrame) (src : String),
      validate_dataframe df src = true →
      (deltaRows db df src true).isEmpty = true →
      store_to_staging_table env db df src true = true) ∧
    (∀ df : DataFrame, hasCol df "value" = false →
      validate_dataframe df "fred" = false) ∧
    validate_dataframe fredDfNulls "fred" = true := by
  have hempty : ∀ (df : DataFrame) (src : String), df.rows.isEmpty = true →
      validate_dataframe df src = false := by
    intro df src h
    simp [validate_dataframe, h]
  refine ⟨hempty, ?_, ?_, ?_, rfl⟩
  · intro env db df src incr h
    simp [store_to_staging_table, hempty df src h]
  · intro env db df src hv hdelta
    simp [store_to_staging_table, hv, hdelta]
  · intro df h
    have hsch : sourceSchemas (pyToLower "fred") =
        some ⟨["date", "series_id", "value"], "FRED economic data",
          "date", "series_id"⟩ := rfl
    rw [validate_dataframe]
    rw [hsch]
    cases he : df.rows.isEmpty
    · simp [h]
    · simp

/-- Witness for `validation_empty_null_policy`: an empty batch is
rejected by the store step, a batch fully filtered away is a no-op
success, and a batch lacking its `value` column fails validation. -/
theorem validation_empty_null_policy_witness :
    store_to_staging_table ⟨true, true, true⟩ .noTable ⟨fredDf.cols, []⟩
        "fred" false = false ∧
    store_to_staging_table ⟨true, true, true⟩ (.ok fredDf.rows) fredDf
        "fred" true = true ∧
    validate_dataframe ⟨[⟨"date", false, false, true⟩,
      ⟨"series_id", false, false, true⟩], [⟨"GDP", 20240101, 5⟩]⟩ "fred" = false :=
  ⟨validation_empty_null_policy.2.1 ⟨true, true, true⟩ .noTable
      ⟨fredDf.cols, []⟩ "fred" false rfl,
    validation_empty_null_policy.2.2.1 ⟨true, true, true⟩ (.ok fredDf.rows)
      fredDf "fred" (by decide) (by decide),
    validation_empty_null_policy.2.2.2.1 ⟨[⟨"date", false, false, true⟩,
      ⟨"series_id", false, false, true⟩], [⟨"GDP", 20240101, 5⟩]⟩ rfl⟩

end EuclidMacro
